import Mathlib

/-!
# Verification of the VagasScrap aggregation pipeline

Shallow embedding of the parts of the repository that the specification's
claims are about:

* `database.py` — `_str`, `_float`, `save_jobs` over an explicit store state
  (SQLite table `vagas` with `link TEXT UNIQUE`, inserts via
  `INSERT OR IGNORE`).
* `filters.py` — `deduplicate`, `filter_remote`, `filter_by_skills`,
  `SENIORITY_KEYWORDS`, `filter_by_seniority`, `apply_all_filters`.
* `recruiter.py` — `_EMAIL_RE` / `_NAME_PATTERNS` matching,
  `_extract_email_from_text`, `_extract_name_from_text`,
  `enrich_recruiter_info`.

A pandas `DataFrame` of postings is modelled as a `List JobRow` with the
canonical column set produced by `scraper._normalize_dataframe`
(`site, titulo, empresa, localizacao, remoto, tipo_vaga, salario_min,
salario_max, moeda, data_postagem, link, emails, descricao`); a nullable
text column is an `Option String` (pandas `NaN`/`None` ↦ `none`), the
boolean column `remoto` is a `Bool` (normalized with `fillna(False)`), and
the numeric salary columns are `Option Int` (a numeric magnitude or
absent; string-to-float parsing of exotic inputs is not needed by any
claim).  The SQLite store is a `List DbRow` in insertion order.

Python regular-expression matching (all relevant regexes are compiled with
`re.IGNORECASE`) is embedded by a small backtracking matcher over an
explicit pattern AST; the three pattern families of the source
(`_EMAIL_RE`, `_NAME_PATTERNS`, `SENIORITY_KEYWORDS`) are translated
pattern by pattern below.
-/

/-! ## Python character/string primitives -/

/-- Python `\s` for the ASCII range: space, tab, newline, carriage return,
vertical tab, form feed. -/
def pyIsSpace (c : Char) : Bool :=
  c = ' ' || c = '\t' || c = '\n' || c = '\r' || c = '\x0b' || c = '\x0c'

/-- Lower-casing over ASCII and the Latin-1 letters (the alphabets the
source's bilingual patterns use).  `×` (U+00D7) is not a letter and is
left unchanged. -/
def pyLower (c : Char) : Char :=
  if ('A' ≤ c && c ≤ 'Z') || ('À' ≤ c && c ≤ 'Þ' && c ≠ '×') then
    Char.ofNat (c.toNat + 32)
  else c

/-- Upper-casing over ASCII and the Latin-1 letters. -/
def pyUpper (c : Char) : Char :=
  if ('a' ≤ c && c ≤ 'z') || ('à' ≤ c && c ≤ 'þ' && c ≠ '÷') then
    Char.ofNat (c.toNat - 32)
  else c

/-- Python `str.strip()` (both ends, whitespace). -/
def pyStrip (s : String) : String :=
  String.mk (((s.data.dropWhile pyIsSpace).reverse.dropWhile pyIsSpace).reverse)

/-- Python `str.lower()` over a whole string (ASCII + Latin-1). -/
def pyLowerStr (s : String) : String := String.mk (s.data.map pyLower)

/-- `leadsWith n h`: the char list `n` is an initial segment of `h`. -/
def leadsWith : List Char → List Char → Bool
  | [], _ => true
  | _ :: _, [] => false
  | a :: n, b :: h => a = b && leadsWith n h

/-- `occursIn n h`: the char list `n` occurs contiguously inside `h`. -/
def occursIn : List Char → List Char → Bool
  | n, [] => n.isEmpty
  | n, c :: h => leadsWith n (c :: h) || occursIn n h

/-- Case-insensitive literal substring test: the semantics of searching a
`re.escape`d keyword compiled with `re.IGNORECASE` inside a haystack. -/
def ciContains (hay needle : String) : Bool :=
  occursIn (needle.data.map pyLower) (hay.data.map pyLower)

/-! ## Data model: the canonical posting row and the persisted row -/

/-- One row of the normalized postings `DataFrame` (column set of
`scraper.KEEP_COLUMNS`, plus the two columns added by
`recruiter.enrich_recruiter_info`). -/
structure JobRow where
  site : Option String := none
  titulo : Option String := none
  empresa : Option String := none
  localizacao : Option String := none
  remoto : Bool := false
  tipo_vaga : Option String := none
  salario_min : Option Int := none
  salario_max : Option Int := none
  moeda : Option String := none
  data_postagem : Option String := none
  link : Option String := none
  emails : Option String := none
  descricao : Option String := none
  email_recrutador : Option String := none
  nome_recrutador : Option String := none
  deriving Repr, DecidableEq

/-- One persisted row of the SQLite table `vagas` (the surrogate key `id`
is played by the row's position in the store list). -/
structure DbRow where
  link : Option String
  site : Option String
  titulo : Option String
  empresa : Option String
  localizacao : Option String
  remoto : Int
  tipo_vaga : Option String
  salario_min : Option Int
  salario_max : Option Int
  moeda : Option String
  data_postagem : Option String
  email_recrutador : Option String
  nome_recrutador : Option String
  termo_busca : String
  data_coleta : String
  deriving Repr, DecidableEq

/-- The store behind `database.py`: the rows of table `vagas` in insertion
order. -/
abbrev Store := List DbRow

/-! ## database.py -/

/-- `database._str`: `None ↦ None`; otherwise stringify, strip, and map
the null-sentinel strings `""`, `"nan"`, `"None"` to `None`. -/
def dbStr (val : Option String) : Option String :=
  match val with
  | none => none
  | some v =>
    let s := pyStrip v
    if s = "" || s = "nan" || s = "None" then none else some s

/-- `database._float`: `float(val)` with `TypeError`/`ValueError` mapped to
`None`.  Salary cells are modelled as numeric-or-absent, so an absent cell
is `None` and a numeric cell parses to itself, with no sign restriction. -/
def dbFloat (val : Option Int) : Option Int :=
  match val with
  | none => none
  | some q => some q

/-- The tuple bound by the `INSERT OR IGNORE` statement of
`database.save_jobs` for one `DataFrame` row. -/
def toDbRow (r : JobRow) (searchTerm coleta : String) : DbRow :=
  { link := dbStr r.link
    site := dbStr r.site
    titulo := dbStr r.titulo
    empresa := dbStr r.empresa
    localizacao := dbStr r.localizacao
    remoto := if r.remoto then 1 else 0
    tipo_vaga := dbStr r.tipo_vaga
    salario_min := dbFloat r.salario_min
    salario_max := dbFloat r.salario_max
    moeda := dbStr r.moeda
    data_postagem := dbStr r.data_postagem
    email_recrutador := dbStr r.email_recrutador
    nome_recrutador := dbStr r.nome_recrutador
    termo_busca := searchTerm
    data_coleta := coleta }

/-- The links currently stored (the `link` column of the store). -/
def storeLinks (st : Store) : List (Option String) := st.map DbRow.link

/-- One iteration of the insert loop of `save_jobs`.  `INSERT OR IGNORE`
ignores the row exactly when the `UNIQUE` constraint on `link` is
violated; per SQLite semantics a `NULL` value never violates a `UNIQUE`
constraint, so a row whose normalized link is `NULL` is always inserted.
`SELECT changes()` is `1` on an actual insert and `0` on an ignore. -/
def saveStep (searchTerm coleta : String) (acc : Store × Nat) (r : JobRow) :
    Store × Nat :=
  match dbStr r.link with
  | none => (acc.1 ++ [toDbRow r searchTerm coleta], acc.2 + 1)
  | some s =>
    if some s ∈ storeLinks acc.1 then acc
    else (acc.1 ++ [toDbRow r searchTerm coleta], acc.2 + 1)

/-- `database.save_jobs` over an explicit store state: returns the updated
store and the number of newly inserted rows (`inserted`).  The timestamp
`coleta` (`datetime.now()` in the source) is an explicit parameter. -/
def save_jobs (st : Store) (df : List JobRow) (searchTerm coleta : String) :
    Store × Nat :=
  if df.isEmpty then (st, 0)
  else df.foldl (saveStep searchTerm coleta) (st, 0)



/-! ## A small backtracking regex engine

All regexes of `recruiter.py` and `filters.py` are compiled with
`re.IGNORECASE`; literals and character classes below already incorporate
the case folding.  The AST covers exactly the constructs those patterns
use (character classes, case-insensitive literals, concatenation,
alternation, greedy `?`, greedy `*`/`+` of a character class, and the
word boundary `\b`); the bounded repetition `{1,3}` of the name-capture
group is handled by an explicit candidate list further below. -/

inductive RE where
  | eps
  | cls (p : Char → Bool)
  | lit (s : String)
  | cat (a b : RE)
  | alt (a b : RE)
  | opt (a : RE)
  | starC (p : Char → Bool)
  | plusC (p : Char → Bool)
  | wb

/-- Python `\w` over ASCII and Latin-1 (letters, digits, underscore). -/
def isWordCh (c : Char) : Bool :=
  c.isAlphanum || c = '_' ||
    ('À' ≤ c && c ≤ 'ÿ' && c ≠ '×' && c ≠ '÷')

/-- Is position `i` of `t` a `\b` word boundary? -/
def atWordB (t : List Char) (i : Nat) : Bool :=
  let pw := if i = 0 then false else
    match t[i-1]? with | some c => isWordCh c | none => false
  let cw := match t[i]? with | some c => isWordCh c | none => false
  pw != cw

/-- Maximal munch: the first position `≥ i` whose character fails `p`
(fuel-driven; `munch` below instantiates the fuel). -/
def munchAux (p : Char → Bool) (t : List Char) : Nat → Nat → Nat
  | 0, i => i
  | fuel+1, i =>
    match t[i]? with
    | some c => if p c then munchAux p t fuel (i+1) else i
    | none => i

/-- End of the maximal run of `p`-characters starting at `i`. -/
def munch (p : Char → Bool) (t : List Char) (i : Nat) : Nat :=
  munchAux p t (t.length - i) i

/-- Case-insensitive literal match (`re.IGNORECASE` semantics over the
alphabets the source patterns use). -/
def matchLitCI : List Char → List Char → Nat → Option Nat
  | [], _, i => some i
  | c :: cs, t, i =>
    match t[i]? with
    | some d => if pyLower d = pyLower c then matchLitCI cs t (i+1) else none
    | none => none

/-- Try continuation `k` at `hi := lo + fuel`, then `hi - 1`, …, down to
`lo`: the backtracking order of a greedy quantifier. -/
def tryDownAux (k : Nat → Option α) (lo : Nat) : Nat → Option α
  | 0 => k lo
  | n+1 =>
    match k (lo + n + 1) with
    | some r => some r
    | none => tryDownAux k lo n

/-- Backtracking matcher in continuation style: `reRun t r i k` matches
`r` at position `i` of `t` and passes every candidate end position to `k`
in the engine's preference order, returning the first success. -/
def reRun (t : List Char) : RE → Nat → (Nat → Option α) → Option α
  | .eps, i, k => k i
  | .cls p, i, k =>
    match t[i]? with
    | some c => if p c then k (i+1) else none
    | none => none
  | .lit s, i, k => (matchLitCI s.data t i).bind k
  | .cat a b, i, k => reRun t a i (fun j => reRun t b j k)
  | .alt a b, i, k =>
    match reRun t a i k with
    | some r => some r
    | none => reRun t b i k
  | .opt a, i, k =>
    match reRun t a i k with
    | some r => some r
    | none => k i
  | .starC p, i, k => tryDownAux k i (munch p t i - i)
  | .plusC p, i, k =>
    let m := munch p t i
    if m = i then none else tryDownAux k (i+1) (m - (i+1))
  | .wb, i, k => if atWordB t i then k i else none

/-- Does `r` match somewhere in `t` at position `≥ i` (fuel-driven scan)? -/
def reSearchFrom (t : List Char) (r : RE) : Nat → Nat → Bool
  | 0, _ => false
  | fuel+1, i => (reRun t r i some).isSome || reSearchFrom t r fuel (i+1)

/-- Python `re.search(r, s) is not None`: scan every start position left
to right. -/
def reSearch (r : RE) (s : String) : Bool :=
  reSearchFrom s.data r (s.data.length + 1) 0

/-- `[\s]` class used by the patterns. -/
def ws0 : RE := .starC pyIsSpace

/-- `\s+`. -/
def ws1 : RE := .plusC pyIsSpace

/-- Case-insensitive character class from its member letters. -/
def ciCls (s : String) : RE :=
  .cls (fun c => (s.data.map pyLower).contains (pyLower c))

/-- Concatenation of a pattern list. -/
def reCat (l : List RE) : RE := l.foldr .cat .eps

/-! ## recruiter.py — `_EMAIL_RE` and `_extract_email_from_text`

`_EMAIL_RE = [a-zA-Z0-9._%+\-]+@[a-zA-Z0-9.\-]+\.[a-zA-Z]{2,}` used with
`findall`.  The matcher below is specialised to this pattern: a maximal
local-part run, `@`, then the greedy backtracking split of the maximal
domain run at the rightmost `.` that is followed by at least two ASCII
letters (the `[a-zA-Z]{2,}` tail is itself maximal, and since letters are
domain characters it always ends within the domain run). -/

/-- `[a-zA-Z0-9._%+\-]` (the local part class). -/
def emailLocalCh (c : Char) : Bool :=
  c.isAlphanum || c = '.' || c = '_' || c = '%' || c = '+' || c = '-'

/-- `[a-zA-Z0-9.\-]` (the domain class). -/
def emailDomCh (c : Char) : Bool :=
  c.isAlphanum || c = '.' || c = '-'

/-- Backtracking search for the rightmost dot split of the domain run:
candidate dot positions `lo + o, lo + o - 1, …, lo`; a candidate `d`
succeeds when `t[d] = '.'` and a maximal ASCII-letter run of length `≥ 2`
follows; the match then ends at the end of that letter run. -/
def emailDotSplit (t : List Char) (lo : Nat) : Nat → Option Nat
  | 0 =>
    let e := munch Char.isAlpha t (lo+1)
    if t[lo]? = some '.' && decide (lo + 3 ≤ e) then some e else none
  | o+1 =>
    let d := lo + o + 1
    let e := munch Char.isAlpha t (d+1)
    if t[d]? = some '.' && decide (d + 3 ≤ e) then some e
    else emailDotSplit t lo o

/-- Attempt `_EMAIL_RE` at position `i`; returns the end of the match. -/
def emailMatchAt (t : List Char) (i : Nat) : Option Nat :=
  let j := munch emailLocalCh t i
  if j = i then none
  else
    match t[j]? with
    | some c =>
      if c = '@' then
        let k0 := j + 1
        let m := munch emailDomCh t k0
        if k0 + 2 ≤ m then emailDotSplit t (k0+1) (m - k0 - 2) else none
      else none
    | none => none

/-- The scan loop of `re.findall`: try each position left to right,
resuming after the end of every (non-overlapping) match. -/
def emailScan (t : List Char) : Nat → Nat → List (Nat × Nat)
  | 0, _ => []
  | fuel+1, i =>
    match emailMatchAt t i with
    | some e => (i, e) :: emailScan t fuel e
    | none => emailScan t fuel (i+1)

/-- `_EMAIL_RE.findall(s)` (the pattern has no groups, so `findall`
returns the full match texts). -/
def emailFindall (s : String) : List String :=
  (emailScan s.data (s.data.length + 1) 0).map
    (fun p => String.mk ((s.data.drop p.1).take (p.2 - p.1)))

/-- Python `str.endswith`. -/
def pyEndsWith (s suf : String) : Bool :=
  leadsWith suf.data.reverse s.data.reverse

/-- Is the matched token an image filename false positive
(`endswith((".png", ".jpg", ".gif", ".svg"))`)? -/
def isImageToken (e : String) : Bool :=
  pyEndsWith e ".png" || pyEndsWith e ".jpg" ||
    pyEndsWith e ".gif" || pyEndsWith e ".svg"

/-- `recruiter._extract_email_from_text`: first `findall` match that does
not end in an image-file suffix; `None` on empty text or no match. -/
def extract_email_from_text (text : String) : Option String :=
  if text = "" then none
  else ((emailFindall text).filter (fun e => !isImageToken e)).head?


/-! ## recruiter.py — `_NAME_PATTERNS` and `_extract_name_from_text`

Every entry of `_NAME_PATTERNS` has the shape
`LABEL ([A-ZÀ-Ú][a-zà-ú]+(?:\s+[A-ZÀ-Ú][a-zà-ú]+){1,3})` with an optional
`\s+at\b` tail (pattern 4).  The capture group — a 2–4 word name, greedy —
is matched by an explicit candidate-end list in the greedy backtracking
order (4 words, then 3, then 2); the inner `+` runs are letter-maximal
and are always followed by a non-letter requirement, so no further
backtracking inside a word is ever exercised by these patterns.
`_NAME_RE` is the `|`-alternation of the eight patterns compiled with
`re.IGNORECASE`, used via `re.search`: positions are scanned left to
right and, at each position, the alternatives are tried in list order. -/

/-- `[A-ZÀ-Ú]` under `re.IGNORECASE`. -/
def nameUpperCh (c : Char) : Bool :=
  let inCls := fun d => ('A' ≤ d && d ≤ 'Z') || ('À' ≤ d && d ≤ 'Ú')
  inCls c || inCls (pyLower c) || inCls (pyUpper c)

/-- `[a-zà-ú]` under `re.IGNORECASE`. -/
def nameLowerCh (c : Char) : Bool :=
  let inCls := fun d => ('a' ≤ d && d ≤ 'z') || ('à' ≤ d && d ≤ 'ú')
  inCls c || inCls (pyLower c) || inCls (pyUpper c)

/-- `[:：]`. -/
def colonCls : RE := .cls (fun c => c = ':' || c = '：')

/-- One name word `[A-ZÀ-Ú][a-zà-ú]+` at position `i` (maximal). -/
def nameWordEnd (t : List Char) (i : Nat) : Option Nat :=
  match t[i]? with
  | some c =>
    if nameUpperCh c then
      let e := munch nameLowerCh t (i+1)
      if i + 2 ≤ e then some e else none
    else none
  | none => none

/-- One `\s+` + name word continuation starting from end position `e`. -/
def nameRepEnd (t : List Char) (e : Nat) : Option Nat :=
  let j := munch pyIsSpace t e
  if e + 1 ≤ j then nameWordEnd t j else none

/-- Candidate end positions of the capture group
`[A-ZÀ-Ú][a-zà-ú]+(?:\s+[A-ZÀ-Ú][a-zà-ú]+){1,3}` at position `i`, in the
greedy preference order (most repetitions first, at least one). -/
def nameCandEnds (t : List Char) (i : Nat) : List Nat :=
  match nameWordEnd t i with
  | none => []
  | some w1 =>
    match nameRepEnd t w1 with
    | none => []
    | some r1 =>
      match nameRepEnd t r1 with
      | none => [r1]
      | some r2 =>
        match nameRepEnd t r2 with
        | none => [r2, r1]
        | some r3 => [r3, r2, r1]

/-- The eight `_NAME_PATTERNS`, each as (label prefix, tail after the
capture group), in source list order. -/
def namePats : List (RE × RE) :=
  [ -- recrut[ao]dor[a]?\s*[:：]\s*(NAME)
    (reCat [.lit "recrut", ciCls "ao", .lit "dor", .opt (ciCls "a"),
            ws0, colonCls, ws0], .eps),
    -- contato\s*[:：]\s*(NAME)
    (reCat [.lit "contato", ws0, colonCls, ws0], .eps),
    -- posted\s+by\s+(NAME)
    (reCat [.lit "posted", ws1, .lit "by", ws1], .eps),
    -- hiring\s+manager\s*[:：]\s*(NAME)
    (reCat [.lit "hiring", ws1, .lit "manager", ws0, colonCls, ws0], .eps),
    -- contact\s+(NAME)\s+at\b
    (reCat [.lit "contact", ws1], reCat [ws1, .lit "at", .wb]),
    -- recruiter\s*[:：]\s*(NAME)
    (reCat [.lit "recruiter", ws0, colonCls, ws0], .eps),
    -- respons[aá]vel\s*[:：]\s*(NAME)
    (reCat [.lit "respons", ciCls "aá", .lit "vel", ws0, colonCls, ws0], .eps),
    -- apply\s+to\s+(NAME)
    (reCat [.lit "apply", ws1, .lit "to", ws1], .eps) ]

/-- Match one name pattern at position `i`: label prefix, then the
capture candidates greedily, then the tail; returns the capture span. -/
def matchNamePat (t : List Char) (pre post : RE) (i : Nat) :
    Option (Nat × Nat) :=
  reRun t pre i (fun j =>
    (nameCandEnds t j).findSome? (fun e =>
      reRun t post e (fun _ => some (j, e))))

/-- The `_NAME_RE` alternation at one position: alternatives in source
list order. -/
def tryNamePatternsAt (t : List Char) (i : Nat) : Option (Nat × Nat) :=
  namePats.findSome? (fun pr => matchNamePat t pr.1 pr.2 i)

/-- The position scan of `re.search` (fuel-driven, left to right). -/
def nameSearchFrom (t : List Char) : Nat → Nat → Option (Nat × Nat)
  | 0, _ => none
  | fuel+1, i =>
    match tryNamePatternsAt t i with
    | some r => some r
    | none => nameSearchFrom t fuel (i+1)

/-- `recruiter._extract_name_from_text`: `_NAME_RE.search` and return the
matched alternative's capture, stripped (in a match of the alternation
exactly one group is set — the matched alternative's — so the source's
first-non-`None`-group loop returns precisely that capture). -/
def extract_name_from_text (text : String) : Option String :=
  if text = "" then none
  else
    match nameSearchFrom text.data (text.data.length + 1) 0 with
    | none => none
    | some (s, e) =>
      some (pyStrip (String.mk ((text.data.drop s).take (e - s))))



/-! ## recruiter.py — `enrich_recruiter_info` -/

/-- The row function `_get_email` of `enrich_recruiter_info`: prefer the
`emails` column when it is truthy and not a null-sentinel string
(`""`, `"nan"`, `"None"`), stripped; otherwise fall back to the regex
scan of `descricao`. -/
def getEmailRow (r : JobRow) : Option String :=
  match r.emails with
  | some raw =>
    if raw ≠ "" && raw ≠ "nan" && raw ≠ "None" then some (pyStrip raw)
    else extract_email_from_text (r.descricao.getD "")
  | none => extract_email_from_text (r.descricao.getD "")

/-- The row function `_get_name` of `enrich_recruiter_info`. -/
def getNameRow (r : JobRow) : Option String :=
  extract_name_from_text (r.descricao.getD "")

/-- Per-row effect of `enrich_recruiter_info`: set the two recruiter
columns; the raw `emails` column is dropped afterwards (modelled as
clearing the field). -/
def enrichRow (r : JobRow) : JobRow :=
  { r with email_recrutador := getEmailRow r
           nome_recrutador := getNameRow r
           emails := none }

/-- `recruiter.enrich_recruiter_info`: row-wise `df.apply(…, axis=1)` for
both new columns, then dropping the raw `emails` column. -/
def enrich_recruiter_info (df : List JobRow) : List JobRow :=
  df.map enrichRow

/-! ## filters.py -/

/-- Does one row match the skill keyword list? — the single
`re.IGNORECASE` regex alternating the `re.escape`d stripped keywords,
searched over `titulo` and `descricao` (`fillna("")`): some keyword that
is non-empty after stripping occurs case-insensitively in one of the two
text columns. -/
def skillRowMatch (kws : List String) (r : JobRow) : Bool :=
  kws.any (fun k =>
    ciContains (r.titulo.getD "") k || ciContains (r.descricao.getD "") k)

/-- `filters.filter_by_skills`. -/
def filter_by_skills (df : List JobRow) (skills : List String) :
    List JobRow :=
  if df.isEmpty || skills.isEmpty then df
  else if ((skills.map pyStrip).filter (fun s => s ≠ "")).isEmpty then df
  else df.filter
    (skillRowMatch ((skills.map pyStrip).filter (fun s => s ≠ "")))

/-- `filters.filter_remote`: keep rows whose `remoto` column is `True`. -/
def filter_remote (df : List JobRow) : List JobRow :=
  if df.isEmpty then df else df.filter (fun r => r.remoto)

/-- The loop of pandas `drop_duplicates(subset=["link"], keep="first")`:
keep a row when its `link` value was not seen before (pandas compares
missing values as equal, so `none` deduplicates against `none` too). -/
def dedupGo (seen : List (Option String)) : List JobRow → List JobRow
  | [] => []
  | r :: rs =>
    if r.link ∈ seen then dedupGo seen rs
    else r :: dedupGo (r.link :: seen) rs

/-- `filters.deduplicate`. -/
def deduplicate (df : List JobRow) : List JobRow :=
  if df.isEmpty then df else dedupGo [] df

/-- Seniority patterns, one definition per source regex line. -/
def senTrainee : List RE :=
  [ reCat [.wb, .lit "trainee", .wb],
    reCat [.wb, .lit "estagi", ciCls "aá", .lit "ri", .opt (ciCls "oa"), .wb],
    reCat [.wb, .lit "est", ciCls "aá", .lit "gio", .wb],
    reCat [.wb, .lit "stage", .wb],
    reCat [.wb, .lit "intern", .opt (.lit "ship"), .wb],
    reCat [.wb, .lit "aprendiz", .wb],
    reCat [.wb, .lit "jovem", ws1, .lit "aprendiz", .wb],
    reCat [.wb, .lit "programa", ws1, .lit "de", ws1, .lit "est",
           ciCls "aá", .lit "gio", .wb] ]

/-- `[\s\-]` class. -/
def wsDash : RE := .cls (fun c => pyIsSpace c || c = '-')

def senJunior : List RE :=
  [ reCat [.wb, .lit "j", ciCls "uú", .lit "nior", .wb],
    reCat [.wb, .lit "jr", .opt (.lit "."), .wb],
    reCat [.wb, .lit "entry", .opt wsDash, .lit "level", .wb],
    reCat [.wb, .lit "rec", ciCls "eé", .lit "m", .opt wsDash,
           .lit "formad", ciCls "oa", .wb],
    reCat [.wb, .lit "sem", ws1, .lit "experi", ciCls "eê", .lit "ncia", .wb],
    reCat [.wb, .lit "pouca", ws1, .lit "experi", ciCls "eê", .lit "ncia", .wb],
    reCat [.wb, .lit "iniciante", .wb],
    reCat [.wb, .lit "primeiro", ws1, .lit "emprego", .wb],
    reCat [.wb, .lit "n", ciCls "ií", .lit "vel", ws1, .lit "inicial", .wb],
    reCat [.wb, .lit "n", ciCls "ií", .lit "vel", ws1, .lit "j", ciCls "uú",
           .lit "nior", .wb],
    reCat [.wb, .lit "0", ws0, ciCls "aà", ws0, .lit "2", ws1, .lit "ano",
           .opt (.lit "s"), .wb],
    reCat [.wb, .lit "at", ciCls "eé", ws1, .lit "2", ws1, .lit "ano",
           .opt (.lit "s"), .wb],
    reCat [.wb, .lit "at", ciCls "eé", ws1, .lit "1", ws1, .lit "ano", .wb],
    reCat [.wb, .lit "jovem", ws1, .lit "profissional", .wb],
    reCat [.wb, .lit "jovem", ws1, .lit "talento", .wb],
    reCat [.wb, .lit "early", .opt wsDash, .lit "career", .wb],
    reCat [.wb, .lit "formand", ciCls "oa", .wb],
    reCat [.wb, .lit "junior", ws1, .lit "developer", .wb],
    reCat [.wb, .lit "junior", ws1, .lit "dev", .wb],
    reCat [.wb, .lit "dev", ws1, .lit "j", ciCls "uú", .lit "nior", .wb] ]

def senPleno : List RE :=
  [ reCat [.wb, .lit "pleno", .wb],
    reCat [.wb, .lit "nível", ws1, .lit "pleno", .wb],
    reCat [.wb, .lit "mid", .opt wsDash, .lit "level", .wb],
    reCat [.wb, .lit "middle", .wb],
    reCat [.wb, .lit "intermedi", ciCls "aá", .lit "ri", ciCls "oa", .wb],
    reCat [.wb, ciCls "23", ws0, ciCls "aà", ws0, .lit "5", ws1, .lit "ano",
           .opt (.lit "s"), .wb],
    reCat [.wb, .lit "2+", ws0, .lit "ano", .opt (.lit "s"), .wb],
    reCat [.wb, .lit "analista", .wb] ]

def senSenior : List RE :=
  [ reCat [.wb, .lit "s", ciCls "eê", .lit "nior", .wb],
    reCat [.wb, .lit "sr", .opt (.lit "."), .wb],
    reCat [.wb, .lit "n", ciCls "ií", .lit "vel", ws1, .lit "s", ciCls "eê",
           .lit "nior", .wb],
    reCat [.wb, .lit "especialista", .wb],
    reCat [.wb, .lit "tech", ws1, .lit "lead", .wb],
    reCat [.wb, .lit "engenheiro", ws1, .lit "s", ciCls "eê", .lit "nior", .wb],
    reCat [.wb, .lit "5", ws0, .lit "+", ws0, .lit "ano", .opt (.lit "s"), .wb],
    reCat [.wb, .lit "mais", ws1, .lit "de", ws1, .lit "5", ws1, .lit "ano",
           .opt (.lit "s"), .wb],
    reCat [.wb, .lit "6", ws0, ciCls "aà", ws0, .plusC Char.isDigit, ws1,
           .lit "ano", .opt (.lit "s"), .wb],
    reCat [.wb, .lit "principal", ws1, .lit "engineer", .wb],
    reCat [.wb, .lit "staff", ws1, .lit "engineer", .wb],
    reCat [.wb, .lit "architect", .wb],
    reCat [.wb, .lit "arquiteto", .wb],
    reCat [.wb, .lit "lead", ws1, .lit "developer", .wb],
    reCat [.wb, .lit "lead", ws1, .lit "dev", .wb] ]

/-- `filters.SENIORITY_KEYWORDS.get(level, [])`: the four fixed keys of
the dict; any other key yields the empty pattern list. -/
def seniorityKeywords (level : String) : List RE :=
  if level = "trainee" then senTrainee
  else if level = "junior" then senJunior
  else if level = "pleno" then senPleno
  else if level = "senior" then senSenior
  else []

/-- Does one row match any of the collected seniority patterns?  (The
source builds one `|`-regex from the fragments; a search of an
alternation succeeds exactly when some alternative matches somewhere.) -/
def seniorityRowMatch (pats : List RE) (r : JobRow) : Bool :=
  pats.any (fun p =>
    reSearch p (r.titulo.getD "") || reSearch p (r.descricao.getD ""))

/-- `filters.filter_by_seniority`. -/
def filter_by_seniority (df : List JobRow) (levels : List String) :
    List JobRow :=
  if df.isEmpty || levels.isEmpty then df
  else if (levels.flatMap seniorityKeywords).isEmpty then df
  else df.filter (seniorityRowMatch (levels.flatMap seniorityKeywords))

/-- `df["site"].str.startswith("post_", na=False)` for one row. -/
def isPostRow (r : JobRow) : Bool :=
  match r.site with
  | some s => leadsWith "post_".data s.data
  | none => false

/-- Python truthiness of an optional keyword list argument
(`None` and `[]` are falsy). -/
def activeList (o : Option (List String)) : Bool :=
  match o with
  | some (_ :: _) => true
  | _ => false

/-- `filters.apply_all_filters`: partitioned deduplication (job boards
and `post_` sources separately, job boards first), then the optional
remote / skills / seniority stages (`reset_index` is the identity in the
list model). -/
def apply_all_filters (df : List JobRow) (skills : Option (List String))
    (remoteOnly : Bool) (seniority : Option (List String)) : List JobRow :=
  let df1 := deduplicate (df.filter (fun r => !isPostRow r)) ++
             deduplicate (df.filter (fun r => isPostRow r))
  let df2 := if remoteOnly then filter_remote df1 else df1
  let df3 := if activeList skills then
               filter_by_skills df2 (skills.getD []) else df2
  let df4 := if activeList seniority then
               filter_by_seniority df3 (seniority.getD []) else df3
  df4



/-! ## Spec-side definitions

The following definitions render the words of specification claims, to be
compared against the code embedding above. -/

/-- Spec-side count of newly stored identities: the number of distinct
normalized `link` identities of the input that are not already stored,
each counted once (an identity joins the stored set as soon as its first
row is counted). -/
def specNewIdent (stored : List (Option String)) : List JobRow → Nat
  | [] => 0
  | r :: rs =>
    if dbStr r.link ∈ stored then specNewIdent stored rs
    else 1 + specNewIdent (stored ++ [dbStr r.link]) rs

/-- Spec-side deduplication, following the claim's words: keep the first
occurrence of each `source_url` and drop all later rows with an equal
`source_url`. -/
def specDedup : List JobRow → List JobRow
  | [] => []
  | r :: rs =>
    r :: specDedup (rs.filter (fun x => x.link ≠ r.link))
  termination_by l => l.length
  decreasing_by
    exact Nat.lt_succ_of_le (List.length_filter_le _ _)

/-- Spec-side skill predicate, following the claim's words: some keyword
(non-empty once trimmed) occurs case-insensitively as a literal substring
of the title or the description. -/
def rowHasSkill (skills : List String) (r : JobRow) : Prop :=
  ∃ k ∈ skills, pyStrip k ≠ "" ∧
    (ciContains (r.titulo.getD "") (pyStrip k) = true ∨
     ciContains (r.descricao.getD "") (pyStrip k) = true)

/-- Scan a single name pattern over all positions (leftmost match of that
one pattern). -/
def patSearchFrom (t : List Char) (pre post : RE) : Nat → Nat → Option (Nat × Nat)
  | 0, _ => none
  | fuel+1, i =>
    match matchNamePat t pre post i with
    | some r => some r
    | none => patSearchFrom t pre post fuel (i+1)

/-- Spec-side name selection, following the claim's words: the first
pattern in `_NAME_PATTERNS` priority order that is satisfied anywhere in
the text determines the captured name (its own leftmost match). -/
def priorityNamePats (t : List Char) : List (RE × RE) → Option (Nat × Nat)
  | [] => none
  | pr :: rest =>
    match patSearchFrom t pr.1 pr.2 (t.length + 1) 0 with
    | some r => some r
    | none => priorityNamePats t rest

/-- Spec-side recruiter-name extraction (claim's priority-order rule). -/
def priority_extract_name (text : String) : Option String :=
  if text = "" then none
  else
    match priorityNamePats text.data namePats with
    | none => none
    | some (s, e) =>
      some (pyStrip (String.mk ((text.data.drop s).take (e - s))))

/-! ## Helper lemmas about the persistence fold -/

theorem toDbRow_link (r : JobRow) (t c : String) :
    (toDbRow r t c).link = dbStr r.link := rfl

theorem specNewIdent_cons (stored : List (Option String)) (r : JobRow)
    (rs : List JobRow) :
    specNewIdent stored (r :: rs) =
      if dbStr r.link ∈ stored then specNewIdent stored rs
      else 1 + specNewIdent (stored ++ [dbStr r.link]) rs := rfl

theorem storeLinks_append (a b : Store) :
    storeLinks (a ++ b) = storeLinks a ++ storeLinks b :=
  List.map_append _ a b

/-- The insert loop only ever appends: stored links persist. -/
theorem fold_links_mono (t c : String) :
    ∀ (df : List JobRow) (st : Store) (n : Nat) (x : Option String),
      x ∈ storeLinks st →
      x ∈ storeLinks (df.foldl (saveStep t c) (st, n)).1
  | [], _, _, _, h => h
  | r :: rs, st, n, x, h => by
    have hstep : x ∈ storeLinks (saveStep t c (st, n) r).1 := by
      unfold saveStep
      cases hl : dbStr r.link with
      | none =>
        simp only [storeLinks_append, List.mem_append]
        exact Or.inl h
      | some s =>
        by_cases hmem : some s ∈ storeLinks st
        · simpa [hmem] using h
        · simp only [hmem, if_false, storeLinks_append, List.mem_append]
          exact Or.inl h
    simpa using fold_links_mono t c rs (saveStep t c (st, n) r).1
      (saveStep t c (st, n) r).2 x hstep

/-- After the loop, every non-null normalized link of the input is
stored. -/
theorem fold_links_present (t c : String) :
    ∀ (df : List JobRow) (st : Store) (n : Nat) (r : JobRow) (s : String),
      r ∈ df → dbStr r.link = some s →
      some s ∈ storeLinks (df.foldl (saveStep t c) (st, n)).1
  | [], _, _, _, _, hmem, _ => absurd hmem (List.not_mem_nil _)
  | r' :: rs, st, n, r, s, hmem, hl => by
    rcases List.mem_cons.mp hmem with heq | htail
    · subst heq
      have hstep : some s ∈ storeLinks (saveStep t c (st, n) r).1 := by
        unfold saveStep
        rw [hl]
        by_cases hin : some s ∈ storeLinks st
        · simp [hin]
        · simp only [hin, if_false, storeLinks_append, List.mem_append]
          exact Or.inr (by simp [storeLinks, toDbRow_link, hl])
      simpa using fold_links_mono t c rs (saveStep t c (st, n) r).1
        (saveStep t c (st, n) r).2 (some s) hstep
    · simpa using fold_links_present t c rs (saveStep t c (st, n) r').1
        (saveStep t c (st, n) r').2 r s htail hl

/-- If every input row's link is already stored, the loop is a no-op. -/
theorem fold_noop (t c : String) :
    ∀ (df : List JobRow) (st : Store) (n : Nat),
      (∀ r ∈ df, ∃ s, dbStr r.link = some s ∧ some s ∈ storeLinks st) →
      df.foldl (saveStep t c) (st, n) = (st, n)
  | [], _, _, _ => rfl
  | r :: rs, st, n, h => by
    obtain ⟨s, hs, hmem⟩ := h r (List.mem_cons_self r rs)
    have hstep : saveStep t c (st, n) r = (st, n) := by
      unfold saveStep
      rw [hs]
      simp [hmem]
    rw [List.foldl_cons, hstep]
    exact fold_noop t c rs st n (fun x hx => h x (List.mem_cons_of_mem r hx))

/-- When no input row has a null link, the returned count is the
spec-side number of distinct newly stored identities. -/
theorem fold_count (t c : String) :
    ∀ (df : List JobRow) (st : Store) (n : Nat),
      (∀ r ∈ df, dbStr r.link ≠ none) →
      (df.foldl (saveStep t c) (st, n)).2 = n + specNewIdent (storeLinks st) df
  | [], _, n, _ => by simp [specNewIdent]
  | r :: rs, st, n, h => by
    have hr := h r (List.mem_cons_self r rs)
    obtain ⟨s, hs⟩ := Option.ne_none_iff_exists'.mp hr
    have htail : ∀ x ∈ rs, dbStr x.link ≠ none :=
      fun x hx => h x (List.mem_cons_of_mem r hx)
    by_cases hmem : some s ∈ storeLinks st
    · have hstep : saveStep t c (st, n) r = (st, n) := by
        unfold saveStep; rw [hs]; simp [hmem]
      rw [List.foldl_cons, hstep]
      rw [fold_count t c rs st n htail]
      rw [specNewIdent_cons, hs, if_pos hmem]
    · have hstep : saveStep t c (st, n) r
          = (st ++ [toDbRow r t c], n + 1) := by
        unfold saveStep; rw [hs]; simp [hmem]
      rw [List.foldl_cons, hstep]
      have hlinks : storeLinks (st ++ [toDbRow r t c])
          = storeLinks st ++ [dbStr r.link] := by
        rw [storeLinks_append]; rfl
      rw [fold_count t c rs (st ++ [toDbRow r t c]) (n + 1) htail, hlinks]
      rw [specNewIdent_cons, hs, if_neg hmem]
      omega

/-- Every row present after the loop was already stored or is the
verbatim image of an input row. -/
theorem fold_store_provenance (t c : String) :
    ∀ (df : List JobRow) (st : Store) (n : Nat) (x : DbRow),
      x ∈ (df.foldl (saveStep t c) (st, n)).1 →
      x ∈ st ∨ ∃ r ∈ df, x = toDbRow r t c
  | [], _, _, _, hx => Or.inl hx
  | r :: rs, st, n, x, hx => by
    have hx' : x ∈ (rs.foldl (saveStep t c)
        ((saveStep t c (st, n) r).1, (saveStep t c (st, n) r).2)).1 := by
      simpa using hx
    rcases fold_store_provenance t c rs (saveStep t c (st, n) r).1
        (saveStep t c (st, n) r).2 x hx' with hstep | ⟨r', hr', hxr⟩
    · have : x ∈ st ∨ x = toDbRow r t c := by
        revert hstep
        unfold saveStep
        cases dbStr r.link with
        | none =>
          intro hstep
          rcases List.mem_append.mp hstep with h1 | h2
          · exact Or.inl h1
          · exact Or.inr (List.mem_singleton.mp h2)
        | some s =>
          by_cases hmem : some s ∈ storeLinks st
          · intro hstep; simp only [hmem, if_true] at hstep; exact Or.inl hstep
          · intro hstep
            simp only [hmem, if_false] at hstep
            rcases List.mem_append.mp hstep with h1 | h2
            · exact Or.inl h1
            · exact Or.inr (List.mem_singleton.mp h2)
      rcases this with h1 | h2
      · exact Or.inl h1
      · exact Or.inr ⟨r, List.mem_cons_self r rs, h2⟩
    · exact Or.inr ⟨r', List.mem_cons_of_mem r hr', hxr⟩

/-- A run over rows whose links all normalize to null appends every row
and counts every row. -/
theorem fold_allnull (t c : String) :
    ∀ (df : List JobRow) (st : Store) (n : Nat),
      (∀ r ∈ df, dbStr r.link = none) →
      df.foldl (saveStep t c) (st, n) =
        (st ++ df.map (fun r => toDbRow r t c), n + df.length)
  | [], st, n, _ => by simp
  | r :: rs, st, n, h => by
    have hstep : saveStep t c (st, n) r = (st ++ [toDbRow r t c], n + 1) := by
      unfold saveStep
      rw [h r (List.mem_cons_self r rs)]
    rw [List.foldl_cons, hstep,
      fold_allnull t c rs (st ++ [toDbRow r t c]) (n + 1)
        (fun x hx => h x (List.mem_cons_of_mem r hx))]
    simp [List.append_assoc]
    omega

/-! ## Claim C1 -/

/-- C1, as stated, is false: a posting whose `link` is null or empty is
not skipped by `save_jobs`.  At the concrete input below (one row whose
link is the empty string, so `_str` normalizes it to `NULL`), the row is
inserted (`SELECT changes()` reports 1, since SQLite's `UNIQUE`
constraint does not apply to `NULL`) and the returned count is 1, not
0. -/
theorem c1_counterexample :
    (save_jobs [] [{ link := some "" }] "python" "2024-01-01 00:00:00").2 = 1 ∧
    (save_jobs [] [{ link := some "" }] "python" "2024-01-01 00:00:00").1.length = 1 ∧
    dbStr (some "") = none := by
  decide

/-- C1 (amended): a posting whose `source_url`/`link` is null or empty
(normalized to `NULL` by `_str`) is always inserted by `save_jobs` —
regardless of the store contents — and contributes one to the returned
count: the `UNIQUE` constraint on `link` never fires for `NULL` values.
First conjunct: at any point of the insert loop, a null-link row is
appended and the counter incremented.  Second conjunct: a collection
whose rows all have null links is inserted in full, with count equal to
its length. -/
theorem c1_null_link_rows_are_inserted (t c : String) (st : Store) (n : Nat)
    (r : JobRow) (rest df : List JobRow)
    (hr : dbStr r.link = none) (hdf : ∀ x ∈ df, dbStr x.link = none) :
    (r :: rest).foldl (saveStep t c) (st, n) =
      rest.foldl (saveStep t c) (st ++ [toDbRow r t c], n + 1) ∧
    save_jobs st df t c = (st ++ df.map (fun x => toDbRow x t c), df.length) := by
  constructor
  · rw [List.foldl_cons]
    have hstep : saveStep t c (st, n) r = (st ++ [toDbRow r t c], n + 1) := by
      unfold saveStep
      rw [hr]
    rw [hstep]
  · rcases df with _ | ⟨d, ds⟩
    · simp [save_jobs]
    · have h := fold_allnull t c (d :: ds) st 0 hdf
      simpa [save_jobs] using h

/-- Witness for C1 (amended) at a concrete input. -/
theorem c1_witness :
    save_jobs [] [({ link := none } : JobRow)] "a" "b" =
      ([toDbRow { link := none } "a" "b"], 1) := by
  have h := (c1_null_link_rows_are_inserted "a" "b" [] 0 { link := none }
    [] [{ link := none }] rfl (by decide)).2
  simpa using h

/-! ## Claim C2 -/

/-- C2, as stated, is false for posting sets that contain a row whose
link normalizes to `NULL`: saving the identical singleton set
`[{link := none}]` twice returns 1 both times (not 0 the second time) and
the total stored row count grows from 1 to 2, because SQLite's `UNIQUE`
constraint ignores `NULL` identities. -/
theorem c2_counterexample :
    (save_jobs (save_jobs [] [{ link := none }] "t" "c1").1
        [{ link := none }] "t" "c2").2 = 1 ∧
    (save_jobs [] [{ link := none }] "t" "c1").1.length = 1 ∧
    (save_jobs (save_jobs [] [{ link := none }] "t" "c1").1
        [{ link := none }] "t" "c2").1.length = 2 := by
  decide

/-- C2 (amended): for every posting set `S` whose rows all have a
non-null, non-empty `source_url` after normalization, the first save
returns the number of distinct identities of `S` not yet stored (each
counted once), and an immediate second save with the identical set
returns 0 and leaves the store unchanged. -/
theorem c2_idempotent_persistence (st : Store) (S : List JobRow)
    (t1 c1 t2 c2 : String) (h : ∀ r ∈ S, dbStr r.link ≠ none) :
    (save_jobs st S t1 c1).2 = specNewIdent (storeLinks st) S ∧
    save_jobs (save_jobs st S t1 c1).1 S t2 c2 =
      ((save_jobs st S t1 c1).1, 0) := by
  rcases S with _ | ⟨d, ds⟩
  · exact ⟨by simp [save_jobs, specNewIdent], by simp [save_jobs]⟩
  · have hst1 : (save_jobs st (d :: ds) t1 c1).1
        = ((d :: ds).foldl (saveStep t1 c1) (st, 0)).1 := by
      simp [save_jobs]
    constructor
    · have hcount := fold_count t1 c1 (d :: ds) st 0 h
      simpa [save_jobs] using hcount
    · have hall : ∀ r ∈ d :: ds, ∃ s, dbStr r.link = some s ∧
          some s ∈ storeLinks (save_jobs st (d :: ds) t1 c1).1 := by
        intro r hrm
        obtain ⟨s, hs⟩ := Option.ne_none_iff_exists'.mp (h r hrm)
        refine ⟨s, hs, ?_⟩
        rw [hst1]
        exact fold_links_present t1 c1 (d :: ds) st 0 r s hrm hs
      have hnoop := fold_noop t2 c2 (d :: ds)
        (save_jobs st (d :: ds) t1 c1).1 0 hall
      simpa [save_jobs] using hnoop

/-- Witness for C2 (amended) at a concrete input. -/
theorem c2_witness :
    (save_jobs [] [({ link := some "https://a/1" } : JobRow)] "t" "c1").2
      = specNewIdent (storeLinks [])
          [({ link := some "https://a/1" } : JobRow)] ∧
    save_jobs (save_jobs [] [({ link := some "https://a/1" } : JobRow)]
        "t" "c1").1 [({ link := some "https://a/1" } : JobRow)] "t" "c2" =
      ((save_jobs [] [({ link := some "https://a/1" } : JobRow)] "t" "c1").1,
        0) :=
  c2_idempotent_persistence [] [{ link := some "https://a/1" }] "t" "c1"
    "t" "c2" (by decide)

/-! ## Claim C5 -/

/-- C5, as stated, is false: nothing in the pipeline enforces
non-negativity of the numeric salary fields.  A posting with
`salario_min = -100` is persisted verbatim with the negative value. -/
theorem c5_counterexample :
    (save_jobs [] [{ link := some "https://x/1", salario_min := some (-100) }]
        "t" "c").1.map DbRow.salario_min = [some (-100)] ∧
    (-100 : Int) < 0 := by
  decide

/-- C5 (amended): each numeric salary field of a persisted row is exactly
`_float` of the corresponding input field — a parsed number or absent —
with no sign restriction and no `salary_max ≥ salary_min` constraint:
every row in the store after a save is either a pre-existing row or the
verbatim `toDbRow` image of an input posting, and `toDbRow` passes both
salary fields through `_float` unchanged. -/
theorem c5_salary_passthrough (st : Store) (df : List JobRow) (t c : String) :
    (∀ x ∈ (save_jobs st df t c).1, x ∈ st ∨ ∃ r ∈ df, x = toDbRow r t c) ∧
    ∀ r : JobRow, (toDbRow r t c).salario_min = dbFloat r.salario_min ∧
      (toDbRow r t c).salario_max = dbFloat r.salario_max := by
  constructor
  · intro x hx
    rcases df with _ | ⟨d, ds⟩
    · simp [save_jobs] at hx
      exact Or.inl hx
    · have hx' : x ∈ ((d :: ds).foldl (saveStep t c) (st, 0)).1 := by
        simpa [save_jobs] using hx
      exact fold_store_provenance t c (d :: ds) st 0 x hx'
  · intro r
    exact ⟨rfl, rfl⟩

/-- Witness for C5 (amended) at a concrete input. -/
theorem c5_witness :
    toDbRow { link := some "u", salario_min := some (-100) } "t" "c"
        ∈ ([] : Store) ∨
    ∃ r ∈ [({ link := some "u", salario_min := some (-100) } : JobRow)],
      toDbRow { link := some "u", salario_min := some (-100) } "t" "c"
        = toDbRow r "t" "c" :=
  (c5_salary_passthrough [] [{ link := some "u", salario_min := some (-100) }]
    "t" "c").1 _ (by decide)

/-! ## Helper lemmas about the filter stages -/

theorem dedupGo_cons (seen : List (Option String)) (r : JobRow)
    (rs : List JobRow) :
    dedupGo seen (r :: rs) =
      if r.link ∈ seen then dedupGo seen rs
      else r :: dedupGo (r.link :: seen) rs := rfl

theorem specDedup_cons (r : JobRow) (rs : List JobRow) :
    specDedup (r :: rs) =
      r :: specDedup (rs.filter (fun x => x.link ≠ r.link)) := by
  rw [specDedup.eq_def]

/-- Deduplication only keeps rows of its input. -/
theorem dedupGo_subset :
    ∀ (xs : List JobRow) (seen : List (Option String)) (x : JobRow),
      x ∈ dedupGo seen xs → x ∈ xs
  | [], _, _, hx => absurd hx (List.not_mem_nil _)
  | r :: rs, seen, x, hx => by
    rw [dedupGo_cons] at hx
    by_cases h : r.link ∈ seen
    · rw [if_pos h] at hx
      exact List.mem_cons_of_mem r (dedupGo_subset rs seen x hx)
    · rw [if_neg h] at hx
      rcases List.mem_cons.mp hx with h1 | h2
      · exact h1 ▸ List.mem_cons_self r rs
      · exact List.mem_cons_of_mem r (dedupGo_subset rs (r.link :: seen) x h2)

theorem dedupGo_length_le :
    ∀ (xs : List JobRow) (seen : List (Option String)),
      (dedupGo seen xs).length ≤ xs.length
  | [], _ => Nat.le_refl 0
  | r :: rs, seen => by
    rw [dedupGo_cons]
    by_cases h : r.link ∈ seen
    · rw [if_pos h]
      exact Nat.le_succ_of_le (dedupGo_length_le rs seen)
    · rw [if_neg h]
      simpa using Nat.succ_le_succ (dedupGo_length_le rs (r.link :: seen))

/-- The deduplication loop equals the spec-side first-occurrence
description, relative to an already-seen set. -/
theorem dedupGo_spec :
    ∀ (xs : List JobRow) (seen : List (Option String)),
      dedupGo seen xs =
        specDedup (xs.filter (fun r => !decide (r.link ∈ seen)))
  | [], seen => by simp [dedupGo, specDedup]
  | r :: rs, seen => by
    rw [dedupGo_cons, List.filter_cons]
    by_cases h : r.link ∈ seen
    · rw [if_pos h]
      have hd : (!decide (r.link ∈ seen)) = false := by simp [h]
      rw [hd, if_neg (by simp)]
      exact dedupGo_spec rs seen
    · rw [if_neg h]
      have hd : (!decide (r.link ∈ seen)) = true := by simp [h]
      rw [hd, if_pos rfl, specDedup_cons]
      congr 1
      rw [dedupGo_spec rs (r.link :: seen), List.filter_filter]
      congr 1
      apply List.filter_congr
      intro x _
      by_cases h1 : x.link = r.link <;> by_cases h2 : x.link ∈ seen <;>
        simp [h1, h2, List.mem_cons]

theorem deduplicate_eq_specDedup (df : List JobRow) :
    deduplicate df = specDedup df := by
  rcases df with _ | ⟨d, ds⟩
  · simp [deduplicate, specDedup]
  · have h := dedupGo_spec (d :: ds) []
    simpa [deduplicate] using h

/-- Every link present in the input survives deduplication on some
row. -/
theorem dedupGo_link_survives :
    ∀ (xs : List JobRow) (seen : List (Option String)) (r : JobRow),
      r ∈ xs → r.link ∉ seen →
      ∃ x ∈ dedupGo seen xs, x.link = r.link
  | [], _, _, hmem, _ => absurd hmem (List.not_mem_nil _)
  | r' :: rs, seen, r, hmem, hseen => by
    rw [dedupGo_cons]
    by_cases h : r'.link ∈ seen
    · rw [if_pos h]
      rcases List.mem_cons.mp hmem with heq | htail
      · exact absurd (heq ▸ h) hseen
      · exact dedupGo_link_survives rs seen r htail hseen
    · rw [if_neg h]
      by_cases hlk : r.link = r'.link
      · exact ⟨r', List.mem_cons_self _ _, hlk.symm⟩
      · rcases List.mem_cons.mp hmem with heq | htail
        · exact absurd (heq ▸ rfl) (heq ▸ hlk)
        · obtain ⟨x, hx, hxl⟩ := dedupGo_link_survives rs (r'.link :: seen) r
            htail (by simp [List.mem_cons, hlk, hseen])
          exact ⟨x, List.mem_cons_of_mem r' hx, hxl⟩

theorem mem_deduplicate (df : List JobRow) (x : JobRow)
    (hx : x ∈ deduplicate df) : x ∈ df := by
  rcases df with _ | ⟨d, ds⟩
  · simp [deduplicate] at hx
  · exact dedupGo_subset (d :: ds) [] x (by simpa [deduplicate] using hx)

theorem deduplicate_length_le (df : List JobRow) :
    (deduplicate df).length ≤ df.length := by
  rcases df with _ | ⟨d, ds⟩
  · simp [deduplicate]
  · simpa [deduplicate] using dedupGo_length_le (d :: ds) []

theorem mem_filter_remote (df : List JobRow) (x : JobRow)
    (hx : x ∈ filter_remote df) : x ∈ df := by
  unfold filter_remote at hx
  split at hx
  · exact hx
  · exact List.mem_of_mem_filter hx

theorem filter_remote_length_le (df : List JobRow) :
    (filter_remote df).length ≤ df.length := by
  unfold filter_remote
  split
  · exact Nat.le_refl _
  · exact List.length_filter_le _ _

theorem mem_filter_by_skills (df : List JobRow) (sk : List String)
    (x : JobRow) (hx : x ∈ filter_by_skills df sk) : x ∈ df := by
  unfold filter_by_skills at hx
  split at hx
  · exact hx
  · split at hx
    · exact hx
    · exact List.mem_of_mem_filter hx

theorem filter_by_skills_length_le (df : List JobRow) (sk : List String) :
    (filter_by_skills df sk).length ≤ df.length := by
  unfold filter_by_skills
  split
  · exact Nat.le_refl _
  · split
    · exact Nat.le_refl _
    · exact List.length_filter_le _ _

theorem mem_filter_by_seniority (df : List JobRow) (lv : List String)
    (x : JobRow) (hx : x ∈ filter_by_seniority df lv) : x ∈ df := by
  unfold filter_by_seniority at hx
  split at hx
  · exact hx
  · split at hx
    · exact hx
    · exact List.mem_of_mem_filter hx

theorem filter_by_seniority_length_le (df : List JobRow) (lv : List String) :
    (filter_by_seniority df lv).length ≤ df.length := by
  unfold filter_by_seniority
  split
  · exact Nat.le_refl _
  · split
    · exact Nat.le_refl _
    · exact List.length_filter_le _ _

/-- The two dedup partitions of `apply_all_filters` cover the input. -/
theorem filter_partition_length :
    ∀ (df : List JobRow) (p : JobRow → Bool),
      (df.filter (fun r => !p r)).length + (df.filter p).length = df.length
  | [], _ => rfl
  | r :: rs, p => by
    have ih := filter_partition_length rs p
    by_cases h : p r <;> simp [List.filter_cons, h] <;> omega

/-- The first stage of `apply_all_filters` (partitioned dedup). -/
theorem apply_all_filters_stage1 (df : List JobRow) :
    apply_all_filters df none false none =
      deduplicate (df.filter (fun r => !isPostRow r)) ++
        deduplicate (df.filter (fun r => isPostRow r)) := by
  simp [apply_all_filters, activeList]

/-! ## Claim C3 -/

/-- C3: deduplication keeps exactly the first occurrence of each
`source_url` and drops all later rows with an equal one (`deduplicate`
equals the spec-side first-occurrence recursion); in the pipeline the
comparison runs separately on the `post_`-site partition and on the
job-board partition, which are then recombined; consequently a
`post_`-site row and a job-board row sharing a `source_url` both
survive. -/
theorem c3_dedup_first_occurrence_partitioned (df : List JobRow)
    (l : Option String) (r1 r2 : JobRow)
    (h1 : r1 ∈ df) (hp1 : isPostRow r1 = true) (hl1 : r1.link = l)
    (h2 : r2 ∈ df) (hp2 : isPostRow r2 = false) (hl2 : r2.link = l) :
    deduplicate df = specDedup df ∧
    apply_all_filters df none false none =
      deduplicate (df.filter (fun r => !isPostRow r)) ++
        deduplicate (df.filter (fun r => isPostRow r)) ∧
    (∃ x ∈ apply_all_filters df none false none,
      isPostRow x = true ∧ x.link = l) ∧
    (∃ y ∈ apply_all_filters df none false none,
      isPostRow y = false ∧ y.link = l) := by
  refine ⟨deduplicate_eq_specDedup df, apply_all_filters_stage1 df, ?_, ?_⟩
  · have hmem : r1 ∈ df.filter (fun r => isPostRow r) :=
      List.mem_filter.mpr ⟨h1, hp1⟩
    have hne : df.filter (fun r => isPostRow r) ≠ [] :=
      List.ne_nil_of_mem hmem
    have hdd : deduplicate (df.filter (fun r => isPostRow r))
        = dedupGo [] (df.filter (fun r => isPostRow r)) := by
      unfold deduplicate
      rw [if_neg (by simpa [List.isEmpty_iff] using hne)]
    obtain ⟨x, hx, hxl⟩ := dedupGo_link_survives
      (df.filter (fun r => isPostRow r)) [] r1 hmem (List.not_mem_nil _)
    refine ⟨x, ?_, ?_, hxl.trans hl1⟩
    · rw [apply_all_filters_stage1 df, hdd]
      exact List.mem_append_right _ hx
    · have := dedupGo_subset _ _ _ hx
      exact (List.mem_filter.mp this).2
  · have hmem : r2 ∈ df.filter (fun r => !isPostRow r) :=
      List.mem_filter.mpr ⟨h2, by simp [hp2]⟩
    have hne : df.filter (fun r => !isPostRow r) ≠ [] :=
      List.ne_nil_of_mem hmem
    have hdd : deduplicate (df.filter (fun r => !isPostRow r))
        = dedupGo [] (df.filter (fun r => !isPostRow r)) := by
      unfold deduplicate
      rw [if_neg (by simpa [List.isEmpty_iff] using hne)]
    obtain ⟨y, hy, hyl⟩ := dedupGo_link_survives
      (df.filter (fun r => !isPostRow r)) [] r2 hmem (List.not_mem_nil _)
    refine ⟨y, ?_, ?_, hyl.trans hl2⟩
    · rw [apply_all_filters_stage1 df, hdd]
      exact List.mem_append_left _ hy
    · have := dedupGo_subset _ _ _ hy
      have hf := (List.mem_filter.mp this).2
      simpa using hf

/-- Witness for C3 at a concrete input: a social-post row and a job-board
row with the same URL both survive the pipeline's deduplication. -/
theorem c3_witness :
    deduplicate
        [({ site := some "post_twitter", link := some "https://a.example/job/1" } : JobRow),
         ({ site := some "gupy", link := some "https://a.example/job/1" } : JobRow)] =
      specDedup
        [({ site := some "post_twitter", link := some "https://a.example/job/1" } : JobRow),
         ({ site := some "gupy", link := some "https://a.example/job/1" } : JobRow)] ∧
    apply_all_filters
        [({ site := some "post_twitter", link := some "https://a.example/job/1" } : JobRow),
         ({ site := some "gupy", link := some "https://a.example/job/1" } : JobRow)]
        none false none =
      deduplicate
        (List.filter (fun r => !isPostRow r)
          [({ site := some "post_twitter", link := some "https://a.example/job/1" } : JobRow),
           ({ site := some "gupy", link := some "https://a.example/job/1" } : JobRow)]) ++
        deduplicate
          (List.filter (fun r => isPostRow r)
            [({ site := some "post_twitter", link := some "https://a.example/job/1" } : JobRow),
             ({ site := some "gupy", link := some "https://a.example/job/1" } : JobRow)]) ∧
    (∃ x ∈ apply_all_filters
        [({ site := some "post_twitter", link := some "https://a.example/job/1" } : JobRow),
         ({ site := some "gupy", link := some "https://a.example/job/1" } : JobRow)]
        none false none,
      isPostRow x = true ∧ x.link = some "https://a.example/job/1") ∧
    (∃ y ∈ apply_all_filters
        [({ site := some "post_twitter", link := some "https://a.example/job/1" } : JobRow),
         ({ site := some "gupy", link := some "https://a.example/job/1" } : JobRow)]
        none false none,
      isPostRow y = false ∧ y.link = some "https://a.example/job/1") :=
  c3_dedup_first_occurrence_partitioned _ (some "https://a.example/job/1")
    { site := some "post_twitter", link := some "https://a.example/job/1" }
    { site := some "gupy", link := some "https://a.example/job/1" }
    (by decide) (by decide) rfl (by decide) (by decide) rfl

/-! ## Claim C7 -/

/-- C7: the skill filter keeps exactly the rows in which some keyword
(non-empty after trimming) occurs case-insensitively as a literal
substring of the title or the description; an empty keyword list is a
pass-through, and a keyword list with nothing left after trimming is
also a pass-through. -/
theorem c7_skill_filter (df : List JobRow) (skills : List String) :
    (skills = [] → filter_by_skills df skills = df) ∧
    ((skills.map pyStrip).filter (fun s => s ≠ "") = [] →
      filter_by_skills df skills = df) ∧
    (∀ r, r ∈ filter_by_skills df skills ↔
      r ∈ df ∧ ((skills.map pyStrip).filter (fun s => s ≠ "") ≠ [] →
        rowHasSkill skills r)) := by
  refine ⟨?_, ?_, ?_⟩
  · intro h
    subst h
    simp [filter_by_skills]
  · intro h
    unfold filter_by_skills
    rw [h]
    simp
  · intro r
    by_cases hdf : df = []
    · subst hdf
      simp [filter_by_skills]
    · by_cases hsk : skills = []
      · subst hsk
        simp [filter_by_skills]
      · by_cases hkw : (skills.map pyStrip).filter (fun s => s ≠ "") = []
        · unfold filter_by_skills
          rw [hkw]
          simp only [List.isEmpty_nil, if_true]
          have : (df.isEmpty || skills.isEmpty) = false := by
            simp [List.isEmpty_iff, hdf, hsk]
          rw [this]
          simp [hkw]
        · unfold filter_by_skills
          have hc : (df.isEmpty || skills.isEmpty) = false := by
            simp [List.isEmpty_iff, hdf, hsk]
          rw [hc]
          simp only [Bool.false_eq_true, if_false]
          rw [if_neg (by simpa [List.isEmpty_iff] using hkw)]
          rw [List.mem_filter]
          constructor
          · rintro ⟨hr, hm⟩
            refine ⟨hr, fun _ => ?_⟩
            obtain ⟨k, hk, hck⟩ := List.any_eq_true.mp hm
            obtain ⟨hkmem, hkne⟩ := List.mem_filter.mp hk
            obtain ⟨k0, hk0, hk0e⟩ := List.mem_map.mp hkmem
            refine ⟨k0, hk0, ?_, ?_⟩
            · rw [hk0e]
              simpa using hkne
            · rw [hk0e]
              simpa using hck
          · rintro ⟨hr, hs⟩
            obtain ⟨k0, hk0, hne, hmatch⟩ := hs hkw
            refine ⟨hr, List.any_eq_true.mpr ⟨pyStrip k0, ?_, ?_⟩⟩
            · exact List.mem_filter.mpr
                ⟨List.mem_map.mpr ⟨k0, hk0, rfl⟩, by simpa using hne⟩
            · rcases hmatch with hm | hm <;> simp [hm]

/-- Witness for C7 at concrete inputs: a trim-empty keyword list is a
pass-through, and a matching row is kept. -/
theorem c7_witness :
    filter_by_skills [({ titulo := some "Dev" } : JobRow)] [" ", ""] =
      [({ titulo := some "Dev" } : JobRow)] ∧
    ({ titulo := some "Dev PYTHON" } : JobRow) ∈
      filter_by_skills
        [({ titulo := some "Dev PYTHON" } : JobRow),
         ({ titulo := some "Dev Java" } : JobRow)] ["python"] := by
  constructor
  · exact (c7_skill_filter _ _).2.1 (by decide)
  · exact ((c7_skill_filter _ _).2.2 _).mpr
      ⟨by decide, fun _ => ⟨"python", by decide, by decide,
        Or.inl (by decide)⟩⟩

/-! ## Claim C8 -/

theorem mem_ite_remote (d : List JobRow) (ro : Bool) (r : JobRow)
    (h : r ∈ (if ro then filter_remote d else d)) : r ∈ d := by
  revert h
  split
  · exact mem_filter_remote d r
  · exact id

theorem mem_ite_skills (d : List JobRow) (sk : Option (List String))
    (r : JobRow)
    (h : r ∈ (if activeList sk then filter_by_skills d (sk.getD []) else d)) :
    r ∈ d := by
  revert h
  split
  · exact mem_filter_by_skills d (sk.getD []) r
  · exact id

theorem mem_ite_seniority (d : List JobRow) (sen : Option (List String))
    (r : JobRow)
    (h : r ∈ (if activeList sen then
      filter_by_seniority d (sen.getD []) else d)) : r ∈ d := by
  revert h
  split
  · exact mem_filter_by_seniority d (sen.getD []) r
  · exact id

theorem len_ite_remote (d : List JobRow) (ro : Bool) :
    (if ro then filter_remote d else d).length ≤ d.length := by
  split
  · exact filter_remote_length_le d
  · exact Nat.le_refl _

theorem len_ite_skills (d : List JobRow) (sk : Option (List String)) :
    (if activeList sk then
      filter_by_skills d (sk.getD []) else d).length ≤ d.length := by
  split
  · exact filter_by_skills_length_le _ _
  · exact Nat.le_refl _

theorem len_ite_seniority (d : List JobRow) (sen : Option (List String)) :
    (if activeList sen then
      filter_by_seniority d (sen.getD []) else d).length ≤ d.length := by
  split
  · exact filter_by_seniority_length_le _ _
  · exact Nat.le_refl _

/-- C8: every filter stage returns a subset of its input rows, so each
stage's output count — and the composed pipeline's — is at most the
input count; a stage with no active option returns its input
unchanged. -/
theorem c8_filter_monotone (df : List JobRow) (skills : Option (List String))
    (ro : Bool) (sen : Option (List String)) (sk lv : List String) :
    (apply_all_filters df skills ro sen).length ≤ df.length ∧
    (deduplicate df).length ≤ df.length ∧
    (filter_remote df).length ≤ df.length ∧
    (filter_by_skills df sk).length ≤ df.length ∧
    (filter_by_seniority df lv).length ≤ df.length ∧
    filter_by_skills df [] = df ∧
    filter_by_seniority df [] = df ∧
    (∀ r ∈ apply_all_filters df skills ro sen, r ∈ df) := by
  have hstage1 :
      ∀ x ∈ deduplicate (df.filter (fun r => !isPostRow r)) ++
          deduplicate (df.filter (fun r => isPostRow r)), x ∈ df := by
    intro x hx
    rcases List.mem_append.mp hx with h | h
    · exact List.mem_of_mem_filter (mem_deduplicate _ _ h)
    · exact List.mem_of_mem_filter (mem_deduplicate _ _ h)
  have hlen1 :
      (deduplicate (df.filter (fun r => !isPostRow r)) ++
        deduplicate (df.filter (fun r => isPostRow r))).length ≤ df.length := by
    rw [List.length_append]
    have ha := deduplicate_length_le (df.filter (fun r => !isPostRow r))
    have hb := deduplicate_length_le (df.filter (fun r => isPostRow r))
    have hc := filter_partition_length df (fun r => isPostRow r)
    omega
  refine ⟨?_, deduplicate_length_le df, filter_remote_length_le df,
    filter_by_skills_length_le df sk, filter_by_seniority_length_le df lv,
    by simp [filter_by_skills], by simp [filter_by_seniority], ?_⟩
  · show (if activeList sen then
        filter_by_seniority _ (sen.getD []) else _).length ≤ df.length
    refine Nat.le_trans (len_ite_seniority _ sen) ?_
    refine Nat.le_trans (len_ite_skills _ skills) ?_
    exact Nat.le_trans (len_ite_remote _ ro) hlen1
  · intro r hr
    have hr' : r ∈ (if activeList sen then
        filter_by_seniority
          (if activeList skills then
            filter_by_skills
              (if ro then
                filter_remote
                  (deduplicate (df.filter (fun x => !isPostRow x)) ++
                    deduplicate (df.filter (fun x => isPostRow x)))
               else
                deduplicate (df.filter (fun x => !isPostRow x)) ++
                  deduplicate (df.filter (fun x => isPostRow x)))
              (skills.getD [])
           else
            if ro then
              filter_remote
                (deduplicate (df.filter (fun x => !isPostRow x)) ++
                  deduplicate (df.filter (fun x => isPostRow x)))
             else
              deduplicate (df.filter (fun x => !isPostRow x)) ++
                deduplicate (df.filter (fun x => isPostRow x)))
          (sen.getD [])
       else
        if activeList skills then
          filter_by_skills
            (if ro then
              filter_remote
                (deduplicate (df.filter (fun x => !isPostRow x)) ++
                  deduplicate (df.filter (fun x => isPostRow x)))
             else
              deduplicate (df.filter (fun x => !isPostRow x)) ++
                deduplicate (df.filter (fun x => isPostRow x)))
            (skills.getD [])
         else
          if ro then
            filter_remote
              (deduplicate (df.filter (fun x => !isPostRow x)) ++
                deduplicate (df.filter (fun x => isPostRow x)))
           else
            deduplicate (df.filter (fun x => !isPostRow x)) ++
              deduplicate (df.filter (fun x => isPostRow x))) := hr
    exact hstage1 r
      (mem_ite_remote _ ro r
        (mem_ite_skills _ skills r
          (mem_ite_seniority _ sen r hr')))

/-- Witness for C8 at a concrete input. -/
theorem c8_witness :
    (apply_all_filters
        [({ titulo := some "Dev", remoto := true, link := some "a" } : JobRow),
         ({ titulo := some "QA", remoto := false, link := some "b" } : JobRow)]
        (some ["dev"]) true none).length ≤ 2 ∧
    ({ titulo := some "Dev", remoto := true, link := some "a" } : JobRow) ∈
      [({ titulo := some "Dev", remoto := true, link := some "a" } : JobRow),
       ({ titulo := some "QA", remoto := false, link := some "b" } : JobRow)] := by
  constructor
  · exact (c8_filter_monotone
      [{ titulo := some "Dev", remoto := true, link := some "a" },
       { titulo := some "QA", remoto := false, link := some "b" }]
      (some ["dev"]) true none [] []).1
  · exact (c8_filter_monotone
      [{ titulo := some "Dev", remoto := true, link := some "a" },
       { titulo := some "QA", remoto := false, link := some "b" }]
      (some ["dev"]) true none [] []).2.2.2.2.2.2.2 _ (by decide)

/-! ## Claim C10 -/

/-- C10: a non-empty seniority request whose level tags are all outside
the fixed vocabulary (`trainee`, `junior`, `pleno`, `senior`) contributes
no patterns, and the filter returns its input unchanged instead of
erroring or dropping rows. -/
theorem c10_unknown_seniority_passthrough (df : List JobRow)
    (levels : List String) (hne : levels ≠ [])
    (h : ∀ l ∈ levels, l ≠ "trainee" ∧ l ≠ "junior" ∧ l ≠ "pleno" ∧
      l ≠ "senior") :
    filter_by_seniority df levels = df := by
  have hflat : ∀ ls : List String,
      (∀ l ∈ ls, l ≠ "trainee" ∧ l ≠ "junior" ∧ l ≠ "pleno" ∧
        l ≠ "senior") →
      ls.flatMap seniorityKeywords = [] := by
    intro ls
    induction ls with
    | nil => intro _; rfl
    | cons a as ih =>
      intro hh
      obtain ⟨h1, h2, h3, h4⟩ := hh a (List.mem_cons_self a as)
      have ha : seniorityKeywords a = [] := by
        simp [seniorityKeywords, h1, h2, h3, h4]
      have has := ih (fun l hl => hh l (List.mem_cons_of_mem a hl))
      simp [List.flatMap_cons, ha, has]
  unfold filter_by_seniority
  rw [hflat levels h]
  simp

/-- Witness for C10 at a concrete input. -/
theorem c10_witness :
    filter_by_seniority
        [({ titulo := some "Engenheiro Sênior Backend" } : JobRow)]
        ["staff", "specialist"] =
      [({ titulo := some "Engenheiro Sênior Backend" } : JobRow)] :=
  c10_unknown_seniority_passthrough _ _ (by decide)
    (by intro l hl; fin_cases hl <;> exact ⟨by decide, by decide, by decide, by decide⟩)

/-! ## Claim C9 -/

/-- C9: enrichment is row-local (`df.apply(…, axis=1)`): the enrichment
of a posting `P` is the same whether `P` travels alone or together with
other rows, and no field other than `email_recrutador`,
`nome_recrutador` — plus the removal of the raw `emails` hint column —
is modified. -/
theorem c9_enrichment_purity (P : JobRow) (df : List JobRow) :
    (enrich_recruiter_info [P]).head? = some (enrichRow P) ∧
    (enrich_recruiter_info [P]).head? =
      (enrich_recruiter_info [P, P]).head? ∧
    enrich_recruiter_info (P :: df) =
      enrichRow P :: enrich_recruiter_info df ∧
    (enrichRow P).site = P.site ∧
    (enrichRow P).titulo = P.titulo ∧
    (enrichRow P).empresa = P.empresa ∧
    (enrichRow P).localizacao = P.localizacao ∧
    (enrichRow P).remoto = P.remoto ∧
    (enrichRow P).tipo_vaga = P.tipo_vaga ∧
    (enrichRow P).salario_min = P.salario_min ∧
    (enrichRow P).salario_max = P.salario_max ∧
    (enrichRow P).moeda = P.moeda ∧
    (enrichRow P).data_postagem = P.data_postagem ∧
    (enrichRow P).link = P.link ∧
    (enrichRow P).descricao = P.descricao ∧
    (enrichRow P).emails = none :=
  ⟨rfl, rfl, rfl, rfl, rfl, rfl, rfl, rfl, rfl, rfl, rfl, rfl, rfl, rfl,
    rfl, rfl⟩

/-! ## Claim C4 -/

theorem nameSearchFrom_succ (t : List Char) (fuel i : Nat) :
    nameSearchFrom t (fuel+1) i =
      match tryNamePatternsAt t i with
      | some r => some r
      | none => nameSearchFrom t fuel (i+1) := rfl

/-- If no position matches, the scan returns nothing. -/
theorem nameSearchFrom_none (t : List Char) :
    ∀ (fuel p : Nat), (∀ j, tryNamePatternsAt t j = none) →
      nameSearchFrom t fuel p = none
  | 0, _, _ => rfl
  | fuel+1, p, h => by
    rw [nameSearchFrom_succ, h p]
    exact nameSearchFrom_none t fuel (p+1) h

/-- The scan returns the match at the least matching position in range. -/
theorem nameSearchFrom_finds (t : List Char) :
    ∀ (fuel p i : Nat), p ≤ i → i < p + fuel →
      (∀ j, p ≤ j → j < i → tryNamePatternsAt t j = none) →
      (tryNamePatternsAt t i).isSome = true →
      nameSearchFrom t fuel p = tryNamePatternsAt t i
  | 0, p, i, hpi, hlt, _, _ => absurd hlt (by omega)
  | fuel+1, p, i, hpi, hlt, h, hsome => by
    by_cases hpe : p = i
    · subst hpe
      rw [nameSearchFrom_succ]
      cases htry : tryNamePatternsAt t p with
      | some r => rfl
      | none => rw [htry] at hsome; simp at hsome
    · have hfirst : tryNamePatternsAt t p = none :=
        h p (Nat.le_refl p) (by omega)
      rw [nameSearchFrom_succ, hfirst]
      exact nameSearchFrom_finds t fuel (p+1) i (by omega) (by omega)
        (fun j hj hji => h j (by omega) hji) hsome

/-- C4, as stated, is false: `_NAME_RE` is one alternation used with
`re.search`, so the *leftmost* matching position wins, not the first
satisfied pattern in priority order.  On the text below, pattern 0
(`recrut…`, first in priority order) is satisfied, so the claim's rule
yields `"Ana Lima"`; the code returns `"John Smith"`, captured by
pattern 2 (`posted by`) at the leftmost matching position. -/
theorem c4_counterexample :
    extract_name_from_text "Posted by John Smith. Recrutador: Ana Lima"
      = some "John Smith" ∧
    priority_extract_name "Posted by John Smith. Recrutador: Ana Lima"
      = some "Ana Lima" ∧
    ("John Smith" : String) ≠ "Ana Lima" := by
  decide

/-- C4 (amended): among the positions of the description, the leftmost
position at which some alternative of `_NAME_RE` matches determines the
result (ties at one position broken by pattern list order inside
`tryNamePatternsAt`), the capture being the stripped name span; if no
position matches, the result is null. -/
theorem c4_leftmost_match_wins (text : String) (i : Nat)
    (hlen : i ≤ text.data.length) :
    (text ≠ "" → (tryNamePatternsAt text.data i).isSome = true →
      (∀ j, j < i → tryNamePatternsAt text.data j = none) →
      extract_name_from_text text =
        (tryNamePatternsAt text.data i).map
          (fun p => pyStrip (String.mk
            ((text.data.drop p.1).take (p.2 - p.1))))) ∧
    ((∀ j, tryNamePatternsAt text.data j = none) →
      extract_name_from_text text = none) := by
  constructor
  · intro hne hsome h
    unfold extract_name_from_text
    rw [if_neg hne]
    rw [nameSearchFrom_finds text.data (text.data.length + 1) 0 i
      (Nat.zero_le i) (by omega) (fun j _ hj => h j hj) hsome]
    cases htry : tryNamePatternsAt text.data i with
    | some r => simp
    | none => rw [htry] at hsome; simp at hsome
  · intro h
    unfold extract_name_from_text
    by_cases hne : text = ""
    · rw [if_pos hne]
    · rw [if_neg hne, nameSearchFrom_none text.data _ _ h]

/-- Witness for C4 (amended) at a concrete input: the match at position 0
determines the extraction. -/
theorem c4_witness :
    extract_name_from_text "Recruiter: Bob Stone" = some "Bob Stone" := by
  have h := (c4_leftmost_match_wins "Recruiter: Bob Stone" 0 (by decide)).1
    (by decide) (by decide) (fun j hj => absurd hj (Nat.not_lt_zero j))
  exact h.trans (by decide)

/-! ## Claim C6 -/

/-- The fallback scan never returns an image-suffixed token. -/
theorem extract_email_not_image (text e : String)
    (h : extract_email_from_text text = some e) : isImageToken e = false := by
  unfold extract_email_from_text at h
  by_cases hne : text = ""
  · rw [if_pos hne] at h
    exact absurd h (by simp)
  · rw [if_neg hne] at h
    cases hf : (emailFindall text).filter (fun x => !isImageToken x) with
    | nil => rw [hf] at h; simp at h
    | cons a as =>
      rw [hf] at h
      have hae : a = e := by simpa using h
      have ha : a ∈ (emailFindall text).filter (fun x => !isImageToken x) :=
        hf ▸ List.mem_cons_self a as
      have := List.of_mem_filter ha
      rw [hae] at this
      simpa using this

/-- C6, as stated, is false at the boundary: a raw `emails` hint equal to
the string `"nan"` is present and non-empty, yet enrichment does not use
it (the source treats `""`, `"nan"`, `"None"` as null sentinels) and
falls back to the description scan, here yielding null. -/
theorem c6_counterexample :
    (enrich_recruiter_info [{ emails := some "nan" }]).map
        JobRow.email_recrutador = [none] ∧
    ({ emails := some "nan" } : JobRow).emails = some "nan" ∧
    ("nan" : String) ≠ "" := by
  decide

/-- C6 (amended): enrichment sets `recruiter_email` to the *stripped* raw
hint whenever the hint is present and not one of the null-sentinel
strings `""`, `"nan"`, `"None"`; otherwise it scans the description and
takes the first email-shaped match that does not end in
`.png`/`.jpg`/`.gif`/`.svg`, null if none exists; in particular a
description containing both `jane@acme.com` and `logo@cdn.example.png`
yields `jane@acme.com` and never the `.png`-suffixed token. -/
theorem c6_email_precedence (r : JobRow) (s e : String) :
    (r.emails = some s → s ≠ "" → s ≠ "nan" → s ≠ "None" →
      (enrichRow r).email_recrutador = some (pyStrip s)) ∧
    ((r.emails = none ∨ r.emails = some "" ∨ r.emails = some "nan" ∨
        r.emails = some "None") →
      (enrichRow r).email_recrutador =
        extract_email_from_text (r.descricao.getD "")) ∧
    (extract_email_from_text (r.descricao.getD "") = some e →
      isImageToken e = false) ∧
    extract_email_from_text
        "Apply now: jane@acme.com or logo@cdn.example.png today"
      = some "jane@acme.com" := by
  refine ⟨?_, ?_, extract_email_not_image _ e, by decide⟩
  · intro hm h1 h2 h3
    show getEmailRow r = some (pyStrip s)
    unfold getEmailRow
    rw [hm]
    simp [h1, h2, h3]
  · intro hm
    show getEmailRow r = extract_email_from_text (r.descricao.getD "")
    unfold getEmailRow
    rcases hm with hm | hm | hm | hm <;> rw [hm] <;> simp

/-- Witness for C6 (amended) at concrete inputs: a usable hint is
preferred (stripped), a sentinel hint falls back to the description
scan. -/
theorem c6_witness :
    (enrichRow { emails := some " r@x.co " }).email_recrutador
      = some "r@x.co" ∧
    (enrichRow { emails := some "", descricao := some "mail bob@work.io here" }).email_recrutador
      = some "bob@work.io" := by
  constructor
  · exact ((c6_email_precedence
      { emails := some " r@x.co " } " r@x.co " "").1
      rfl (by decide) (by decide) (by decide)).trans (by decide)
  · exact ((c6_email_precedence
      { emails := some "", descricao := some "mail bob@work.io here" }
      "" "").2.1 (Or.inr (Or.inl rfl))).trans (by decide)
